import Mathlib

/-!
Verification development for the sitemap-generator service (src/main.py).

The Python program is shallowly embedded as follows.  External library
capabilities are abstracted exactly as the specification prescribes:

* the HTTP layer together with BeautifulSoup link extraction and urljoin
  resolution is a function `String → FetchResult` giving, for each URL, the
  fetch outcome and the list of absolute hrefs extracted from the page;
* `urllib.parse.urlparse` is modelled by `urlparse` (restricted to the
  absolute http/https URLs this program manipulates);
* `urllib.robotparser` is modelled by `RobotsDoc`/`check_robots_txt`.

Python sets of URL strings are modelled as duplicate-free lists built only
through membership-guarded insertion, mirroring the source, so `len` is
`List.length`, `add` is `cons` after a membership test, and `update` is
`pyUpdate`.  The recursive traversal `get_internal_links` is embedded twice:
once as a well-founded recursive function (the reference denotation) and once
as the fuel-indexed step function `runCrawl` which models the raw unbounded
recursion of the source; the two are connected by a convergence theorem.
-/

/-- Configuration constant `TIMEOUT = 10` (src/main.py line 18); the network
timeout is not otherwise observable in the pure model. -/
def TIMEOUT : Nat := 10

/-- Configuration constant `CRAWL_DELAY = 2` (src/main.py line 19). -/
def CRAWL_DELAY : Nat := 2

/-- Configuration constant `MAX_PAGES_LIMIT = 500` (src/main.py line 20). -/
def MAX_PAGES_LIMIT : Nat := 500

/-- The result of `urllib.parse.urlparse`: the components of a URL that the
program reads (`scheme`, `netloc`, `path`, `query`). -/
structure UrlParts where
  scheme : String
  netloc : String
  path : String
  query : String

/-- Splits a character list at the first occurrence of the sequence `://`,
returning the part before (the scheme) and after. -/
def splitSchemeAux : List Char → Option (List Char × List Char)
  | [] => none
  | ':' :: '/' :: '/' :: rest => some ([], rest)
  | c :: rest =>
    match splitSchemeAux rest with
    | none => none
    | some (pre, post) => some (c :: pre, post)

/-- Modelled from the spec: `urllib.parse.urlparse` (Python standard library,
an external capability), restricted to the absolute URLs this program
manipulates.  The netloc runs from `://` to the first `/`, `?` or `#`; the
path then runs to the first `?`; the query is what follows the `?` (fragments
are stripped).  A string with no `://` has empty scheme and netloc. -/
def urlparse (s : String) : UrlParts :=
  match splitSchemeAux s.toList with
  | none => { scheme := "", netloc := "", path := s, query := "" }
  | some (sch, rest) =>
    let beforeFrag := rest.takeWhile (fun c => c != '#')
    let net := beforeFrag.takeWhile (fun c => c != '/' && c != '?')
    let after := beforeFrag.drop net.length
    let pth := after.takeWhile (fun c => c != '?')
    let qry := after.drop (pth.length + 1)
    { scheme := String.mk sch, netloc := String.mk net,
      path := String.mk pth, query := String.mk qry }

/-- Python `str.endswith`: `s` ends with `suffix` as a character sequence. -/
def strEndsWith (s suffix : String) : Bool :=
  s.toList.drop (s.toList.length - suffix.toList.length) == suffix.toList

/-- The denylist of non-page extensions (src/main.py lines 69-72). -/
def EXTENSIONS : List String :=
  [".pdf", ".jpg", ".jpeg", ".png", ".gif", ".css", ".js",
   ".zip", ".tar", ".gz", ".doc", ".docx", ".xls", ".xlsx"]

/-- Python `set.update` on the duplicate-free-list model of a set:
`v.update(r)` appends the members of `r` that are missing from `v`. -/
def pyUpdate (v r : List String) : List String :=
  v ++ r.filter (fun x => !(decide (x ∈ v)))

/-- The link filter of src/main.py lines 66-72, in source order: the parsed
netloc equals the crawl's base domain, the scheme is http or https, the href
is not already visited, and the raw href string does not end in a denylisted
extension.  Python applies `endswith` to the full URL string, not the path. -/
def internal_link_ok (base_domain : String) (visited : List String)
    (href : String) : Bool :=
  let p := urlparse href
  (p.netloc == base_domain) &&
  ((p.scheme == "http") || (p.scheme == "https")) &&
  !(decide (href ∈ visited)) &&
  !(EXTENSIONS.any (fun ext => strEndsWith href ext))

/-- Outcome of fetching one URL.  `failure` covers the exception path of
src/main.py lines 46-52 and 77 (network error, timeout, non-2xx status after
`raise_for_status`); `success isHtml links` is a 2xx response whose
content-type does (or does not) contain `text/html`, with `links` the
absolute hrefs that BeautifulSoup plus `urljoin` extract from the body
(an external capability per the spec; empty when not parsed). -/
inductive FetchResult where
  | failure : FetchResult
  | success (isHtml : Bool) (links : List String) : FetchResult

mutual

/-- `get_internal_links` (src/main.py lines 40-80): if the visited set has
reached `max_pages`, return it; otherwise fetch `url` (any error returns the
set unchanged), return unchanged on non-HTML content, else process each
extracted link in order. -/
def get_internal_links (site : String → FetchResult) (base_domain : String)
    (max_pages : Int) (url : String) (visited : List String) : List String :=
  if _h : (visited.length : Int) ≥ max_pages then visited
  else
    match site url with
    | FetchResult.failure => visited
    | FetchResult.success isHtml links =>
      if !isHtml then visited
      else process_links site base_domain max_pages links visited
termination_by ((max_pages.toNat + 1) - visited.length, 0)
decreasing_by
  apply Prod.Lex.left
  omega

/-- The `for link in soup.find_all(...)` loop body of src/main.py lines 61-76:
each href passing `internal_link_ok` is added to the visited set
(`visited.add(href)`), the crawl recurses on it, and the recursion's result is
merged back (`visited.update(...)`; in the source the update is over the very
same mutated set object, which `pyUpdate` reproduces). -/
def process_links (site : String → FetchResult) (base_domain : String)
    (max_pages : Int) (links : List String) (visited : List String) :
    List String :=
  match links with
  | [] => visited
  | href :: rest =>
    if internal_link_ok base_domain visited href then
      process_links site base_domain max_pages rest
        (pyUpdate (href :: visited)
          (get_internal_links site base_domain max_pages href (href :: visited)))
    else process_links site base_domain max_pages rest visited
termination_by (max_pages.toNat - visited.length, links.length + 1)
decreasing_by
  · simp only [List.length_cons, Nat.add_sub_add_right]
    exact Prod.Lex.right _ (by omega)
  · have key : ∀ r : List String,
        Prod.Lex (fun a₁ a₂ => a₁ < a₂) (fun a₁ a₂ => a₁ < a₂)
          (max_pages.toNat - (pyUpdate (href :: visited) r).length,
            rest.length + 1)
          (max_pages.toNat - visited.length, (href :: rest).length + 1) := by
      intro r
      have hlen : visited.length + 1 ≤ (pyUpdate (href :: visited) r).length := by
        simp only [pyUpdate, List.length_append, List.length_cons]
        omega
      have h1 : max_pages.toNat - (pyUpdate (href :: visited) r).length ≤
          max_pages.toNat - visited.length := Nat.sub_le_sub_left (by omega) _
      rcases lt_or_eq_of_le h1 with h2 | h2
      · exact Prod.Lex.left _ _ h2
      · rw [h2]
        exact Prod.Lex.right _ (by simp only [List.length_cons]; omega)
    exact key _
  · exact Prod.Lex.right _ (by simp only [List.length_cons]; omega)

end

/-- A unit of pending work in the traversal: either crawl one page, or run
the link loop over a list of extracted hrefs. -/
inductive CrawlTask where
  | page (url : String) : CrawlTask
  | scan (hrefs : List String) : CrawlTask

/-- Fuel-indexed step semantics of the raw recursion of
`get_internal_links`/`process_links`: one unit of fuel is consumed per
recursive activation, and `none` means the fuel ran out before the recursion
returned.  This models the unbounded recursion of the source directly; its
convergence to `get_internal_links` for sufficient fuel is proved below. -/
def runCrawl (site : String → FetchResult) (bd : String) (mp : Int) :
    Nat → CrawlTask → List String → Option (List String)
  | 0, _, _ => none
  | fuel + 1, CrawlTask.page url, visited =>
    if (visited.length : Int) ≥ mp then some visited
    else
      match site url with
      | FetchResult.failure => some visited
      | FetchResult.success isHtml links =>
        if !isHtml then some visited
        else runCrawl site bd mp fuel (CrawlTask.scan links) visited
  | _fuel + 1, CrawlTask.scan [], visited => some visited
  | fuel + 1, CrawlTask.scan (href :: rest), visited =>
    if internal_link_ok bd visited href then
      match runCrawl site bd mp fuel (CrawlTask.page href) (href :: visited) with
      | none => none
      | some r =>
        runCrawl site bd mp fuel (CrawlTask.scan rest) (pyUpdate (href :: visited) r)
    else runCrawl site bd mp fuel (CrawlTask.scan rest) visited

/-- `runCrawl` instrumented with a wall clock and a fetch log, for the timing
behaviour of src/main.py: `requests.get` (line 46) issues a fetch at the
current instant (recorded as a `(url, time)` event), and `time.sleep
(CRAWL_DELAY)` (line 58) advances the clock by the constant `CRAWL_DELAY` —
only after a successful HTML response, since errors and non-HTML responses
return before the sleep.  Fetch durations are idealized to zero, so recorded
gaps are exactly the separations the code enforces. -/
def runCrawlTimed (site : String → FetchResult) (bd : String) (mp : Int) :
    Nat → CrawlTask → List String → Nat → List (String × Nat) →
      Option (List String × Nat × List (String × Nat))
  | 0, _, _, _, _ => none
  | fuel + 1, CrawlTask.page url, visited, now, events =>
    if (visited.length : Int) ≥ mp then some (visited, now, events)
    else
      match site url with
      | FetchResult.failure => some (visited, now, events ++ [(url, now)])
      | FetchResult.success isHtml links =>
        if !isHtml then some (visited, now, events ++ [(url, now)])
        else
          runCrawlTimed site bd mp fuel (CrawlTask.scan links) visited
            (now + CRAWL_DELAY) (events ++ [(url, now)])
  | _fuel + 1, CrawlTask.scan [], visited, now, events => some (visited, now, events)
  | fuel + 1, CrawlTask.scan (href :: rest), visited, now, events =>
    if internal_link_ok bd visited href then
      match runCrawlTimed site bd mp fuel (CrawlTask.page href) (href :: visited)
          now events with
      | none => none
      | some (r, now', events') =>
        runCrawlTimed site bd mp fuel (CrawlTask.scan rest)
          (pyUpdate (href :: visited) r) now' events'
    else runCrawlTimed site bd mp fuel (CrawlTask.scan rest) visited now events

/-- Modelled from the spec: the outcome of reading `{scheme}://{host}
/robots.txt` through `urllib.robotparser` (Python standard library, an
external capability).  `unreachable` is a network error during `read()`
(raises, caught by the bare except); `absent` is a missing document, which
`RobotFileParser` treats as allow-all with no advertised delay; `content`
is a readable document with its user-agent-`*` fetch rule and optional
advertised crawl-delay. -/
inductive RobotsDoc where
  | unreachable : RobotsDoc
  | absent : RobotsDoc
  | content (canFetch : String → Bool) (crawlDelay : Option Nat) : RobotsDoc

/-- `check_robots_txt` (src/main.py lines 26-38): returns whether a generic
agent may fetch `url` and the crawl delay to use.  Any exception yields the
fail-open default `(True, CRAWL_DELAY)`; an absent document is allow-all with
the default delay; otherwise the advertised delay is used, except that Python
`crawl_delay or CRAWL_DELAY` also maps an advertised delay of `0` (falsy) to
the default.  The function is total: no error reaches the caller. -/
def check_robots_txt (doc : RobotsDoc) (url : String) : Bool × Nat :=
  match doc with
  | RobotsDoc.unreachable => (true, CRAWL_DELAY)
  | RobotsDoc.absent => (true, CRAWL_DELAY)
  | RobotsDoc.content canFetch crawlDelay =>
    (canFetch url,
      match crawlDelay with
      | none => CRAWL_DELAY
      | some d => if d = 0 then CRAWL_DELAY else d)

/-- The two HTTPException paths of `generate_sitemap`. -/
inductive ApiError where
  | limitExceeded : ApiError
  | robotsDisallowed : ApiError

/-- HTTP status code attached to each error (src/main.py lines 91 and 99). -/
def statusCode : ApiError → Nat
  | ApiError.limitExceeded => 400
  | ApiError.robotsDisallowed => 403

/-- An `xml.etree.ElementTree` element: tag, attributes, text and children. -/
inductive XmlElem where
  | elem (tag : String) (attrs : List (String × String)) (text : Option String)
      (children : List XmlElem) : XmlElem

def XmlElem.tag : XmlElem → String
  | XmlElem.elem t _ _ _ => t

def XmlElem.attrs : XmlElem → List (String × String)
  | XmlElem.elem _ a _ _ => a

def XmlElem.text : XmlElem → Option String
  | XmlElem.elem _ _ t _ => t

def XmlElem.children : XmlElem → List XmlElem
  | XmlElem.elem _ _ _ c => c

/-- One `url` entry of the sitemap (src/main.py lines 118-122): a `url`
element whose single child is a `loc` element holding the literal URL string;
no attributes, no other children, no lastmod/priority/changefreq. -/
def url_entry (link : String) : XmlElem :=
  XmlElem.elem ("url") [] none [XmlElem.elem ("loc") [] (some link) []]

/-- The sitemap document (src/main.py lines 116-122): root `urlset` with the
sitemaps.org 0.9 namespace and one `url` entry per crawled link, in
iteration order. -/
def build_sitemap (links : List String) : XmlElem :=
  XmlElem.elem ("urlset")
    [("xmlns", "http://www.sitemaps.org/schemas/sitemap/0.9")] none
    (links.map url_entry)

/-- Output file name (src/main.py line 105): `sitemaps/sitemap_{domain with
dots replaced by underscores}.xml`. -/
def sitemap_file_path (domain : String) : String :=
  "sitemaps/sitemap_" ++
    String.mk (domain.toList.map (fun c => if c == '.' then '_' else c)) ++ ".xml"

/-- The JSON body returned on success (src/main.py lines 129-134), extended
with the two artifacts the model keeps in memory instead of on disk: the
visited set handed to the sitemap writer (`links`) and the XML document
written to `file_path` (`sitemap`). -/
structure ApiResponse where
  message : String
  file_path : String
  url_count : Nat
  crawl_delay_used : Nat
  links : List String
  sitemap : XmlElem

/-- The `/generate-sitemap` handler (src/main.py lines 82-134): reject
`max_pages` above `MAX_PAGES_LIMIT` with a 400-style error; reject a seed
disallowed by robots.txt with a 403-style error; otherwise crawl from the
seed with `visited = {url}`, build the sitemap document from the resulting
set, and report the count and the robots-derived crawl delay.  The robots
document and the site content are the handler's two external inputs. -/
def generate_sitemap (robots : RobotsDoc) (site : String → FetchResult)
    (url : String) (max_pages : Int) : Except ApiError ApiResponse :=
  let domain := (urlparse url).netloc
  if max_pages > (MAX_PAGES_LIMIT : Int) then Except.error ApiError.limitExceeded
  else if (check_robots_txt robots url).1 = false then
    Except.error ApiError.robotsDisallowed
  else
    let links := get_internal_links site domain max_pages url [url]
    Except.ok
      { message := "Sitemap generated successfully"
        file_path := sitemap_file_path domain
        url_count := links.length
        crawl_delay_used := (check_robots_txt robots url).2
        links := links
        sitemap := build_sitemap links }

/-- The page fetches issued by one `/generate-sitemap` job (instrumented
semantics of `generate_sitemap`): the robots.txt read is the policy check
itself, not a page fetch; on either rejection path the traversal is never
started, so no fetch occurs.  `fuel` indexes the traversal steps as in
`runCrawlTimed`; an exhausted fuel reports no events. -/
def generate_sitemap_fetches (robots : RobotsDoc) (site : String → FetchResult)
    (url : String) (max_pages : Int) (fuel : Nat) : List (String × Nat) :=
  if max_pages > (MAX_PAGES_LIMIT : Int) then []
  else if (check_robots_txt robots url).1 = false then []
  else
    match runCrawlTimed site (urlparse url).netloc max_pages fuel
        (CrawlTask.page url) [url] 0 [] with
    | none => []
    | some (_, _, events) => events

/-- The properties guaranteed by `internal_link_ok` that do not depend on the
visited set: same netloc as the base domain, http(s) scheme, and no
denylisted extension at the end of the raw URL string. -/
def link_filter_props (bd : String) (x : String) : Prop :=
  (urlparse x).netloc = bd ∧
  ((urlparse x).scheme = "http" ∨ (urlparse x).scheme = "https") ∧
  ∀ ext ∈ EXTENSIONS, strEndsWith x ext = false

/-! Concrete scenarios used to instantiate the theorems below. -/

/-- Seed URL of the main example site. -/
def exSeed : String := "http://example.test/"

def exA : String := "http://example.test/a"

def exOther : String := "http://other.test/x"

def exPdf : String := "http://example.test/doc.pdf"

def exPdfQuery : String := "http://example.test/doc.pdf?view=1"

def exFail : String := "http://example.test/fail"

def exImg : String := "http://example.test/img"

/-- Example site: the seed page links to a same-host page, a cross-host page,
a `.pdf`, a `.pdf?view=1`, a page whose fetch fails, and a non-HTML page;
every other same-host page is empty HTML. -/
def exSite : String → FetchResult := fun u =>
  if u == exSeed then
    FetchResult.success true [exA, exOther, exPdf, exPdfQuery, exFail, exImg]
  else if u == exFail then FetchResult.failure
  else if u == exImg then FetchResult.success false []
  else FetchResult.success true []

/-- The crawl result on `exSite` from `exSeed` with `max_pages = 10`. -/
def exLinks : List String := [exImg, exFail, exPdfQuery, exA, exSeed]

def exRobots : RobotsDoc := RobotsDoc.absent

/-- The response `generate_sitemap` produces on the main example. -/
def exResp : ApiResponse :=
  { message := "Sitemap generated successfully"
    file_path := "sitemaps/sitemap_example_test.xml"
    url_count := 5
    crawl_delay_used := 2
    links := exLinks
    sitemap := build_sitemap exLinks }

/-- The response `generate_sitemap` produces on the main example when
`max_pages = 0`: the traversal stops immediately, leaving only the seed. -/
def exResp0 : ApiResponse :=
  { message := "Sitemap generated successfully"
    file_path := "sitemaps/sitemap_example_test.xml"
    url_count := 1
    crawl_delay_used := 2
    links := [exSeed]
    sitemap := build_sitemap [exSeed] }

def c1Seed : String := "http://ex.test/"

def c1A : String := "http://ex.test/a"

def c1B : String := "http://ex.test/b"

def c1C : String := "http://ex.test/c"

/-- Site whose seed page carries three same-host links; used to exhibit the
page-limit overshoot. -/
def c1Site : String → FetchResult := fun u =>
  if u == c1Seed then FetchResult.success true [c1A, c1B, c1C]
  else FetchResult.success true []

def c3Seed : String := "http://t.example/"

def c3Fail : String := "http://t.example/fail"

def c3B : String := "http://t.example/b"

/-- Site whose seed page links to a failing page and then an ordinary page;
used to exhibit back-to-back fetches with no delay between them. -/
def c3Site : String → FetchResult := fun u =>
  if u == c3Seed then FetchResult.success true [c3Fail, c3B]
  else if u == c3Fail then FetchResult.failure
  else FetchResult.success true []

/-- A robots document that allows everything and advertises a crawl-delay of
10 seconds. -/
def c3Robots : RobotsDoc := RobotsDoc.content (fun _ => true) (some 10)

/-- A robots document that disallows every path. -/
def c5Robots : RobotsDoc := RobotsDoc.content (fun _ => false) none

lemma mem_pyUpdate {x : String} {v r : List String} :
    x ∈ pyUpdate v r ↔ x ∈ v ∨ x ∈ r := by
  simp only [pyUpdate, List.mem_append, List.mem_filter, Bool.not_eq_true',
    decide_eq_false_iff_not]
  constructor
  · rintro (h | ⟨h, -⟩)
    · exact Or.inl h
    · exact Or.inr h
  · rintro (h | h)
    · exact Or.inl h
    · by_cases hv : x ∈ v
      · exact Or.inl hv
      · exact Or.inr ⟨h, hv⟩

lemma internal_link_ok_spec {bd : String} {v : List String} {href : String}
    (h : internal_link_ok bd v href = true) :
    href ∉ v ∧ link_filter_props bd href := by
  simp only [internal_link_ok, Bool.and_eq_true, beq_iff_eq, Bool.or_eq_true,
    Bool.not_eq_true', decide_eq_false_iff_not, List.any_eq_false] at h
  obtain ⟨⟨⟨hnet, hsch⟩, hmem⟩, hext⟩ := h
  refine ⟨hmem, hnet, ?_, ?_⟩
  · rcases hsch with h1 | h1
    · exact Or.inl h1
    · exact Or.inr h1
  · intro ext hextmem
    simpa using hext ext hextmem

lemma runCrawl_mono (site : String → FetchResult) (bd : String) (mp : Int) :
    ∀ fuel fuel' task visited r, fuel ≤ fuel' →
      runCrawl site bd mp fuel task visited = some r →
      runCrawl site bd mp fuel' task visited = some r := by
  intro fuel
  induction fuel with
  | zero =>
    intro fuel' task visited r _ h
    simp [runCrawl] at h
  | succ f ih =>
    intro fuel' task visited r hle h
    obtain ⟨f', rfl⟩ : ∃ f', fuel' = f' + 1 := ⟨fuel' - 1, by omega⟩
    have hle' : f ≤ f' := by omega
    cases task with
    | page url =>
      simp only [runCrawl] at h ⊢
      by_cases hstop : (visited.length : Int) ≥ mp
      · simpa [hstop] using h
      · simp only [if_neg hstop] at h ⊢
        cases hsite : site url with
        | failure => simpa [hsite] using h
        | success isHtml links =>
          simp only [hsite] at h ⊢
          cases isHtml with
          | false => simpa using h
          | true =>
            simp only [Bool.not_true, Bool.false_eq_true, if_false] at h ⊢
            exact ih f' _ _ _ hle' h
    | scan hrefs =>
      cases hrefs with
      | nil => simpa [runCrawl] using h
      | cons href rest =>
        simp only [runCrawl] at h ⊢
        by_cases hok : internal_link_ok bd visited href = true
        · simp only [if_pos hok] at h ⊢
          cases hrec : runCrawl site bd mp f (CrawlTask.page href)
              (href :: visited) with
          | none => rw [hrec] at h; simp at h
          | some r₁ =>
            rw [hrec] at h
            rw [ih f' _ _ _ hle' hrec]
            exact ih f' _ _ _ hle' h
        · simp only [if_neg hok] at h ⊢
          exact ih f' _ _ _ hle' h

lemma runCrawl_subset (site : String → FetchResult) (bd : String) (mp : Int) :
    ∀ fuel task visited r,
      runCrawl site bd mp fuel task visited = some r → visited ⊆ r := by
  intro fuel
  induction fuel with
  | zero =>
    intro task visited r h
    simp [runCrawl] at h
  | succ f ih =>
    intro task visited r h
    cases task with
    | page url =>
      simp only [runCrawl] at h
      by_cases hstop : (visited.length : Int) ≥ mp
      · simp only [if_pos hstop, Option.some.injEq] at h
        exact h ▸ fun x hx => hx
      · simp only [if_neg hstop] at h
        cases hsite : site url with
        | failure =>
          rw [hsite] at h
          simp only [Option.some.injEq] at h
          exact h ▸ fun x hx => hx
        | success isHtml links =>
          rw [hsite] at h
          cases isHtml with
          | false =>
            simp only [Bool.not_false, if_true, Option.some.injEq] at h
            exact h ▸ fun x hx => hx
          | true =>
            simp only [Bool.not_true, Bool.false_eq_true, if_false] at h
            exact ih _ _ _ h
    | scan hrefs =>
      cases hrefs with
      | nil =>
        simp only [runCrawl, Option.some.injEq] at h
        exact h ▸ fun x hx => hx
      | cons href rest =>
        simp only [runCrawl] at h
        by_cases hok : internal_link_ok bd visited href = true
        · simp only [if_pos hok] at h
          cases hrec : runCrawl site bd mp f (CrawlTask.page href)
              (href :: visited) with
          | none => rw [hrec] at h; simp at h
          | some r₁ =>
            rw [hrec] at h
            have h2 := ih _ _ _ h
            intro x hx
            exact h2 (mem_pyUpdate.mpr (Or.inl (List.mem_cons_of_mem _ hx)))
        · simp only [if_neg hok] at h
          exact ih _ _ _ h

lemma runCrawl_mem (site : String → FetchResult) (bd : String) (mp : Int) :
    ∀ fuel task visited r,
      runCrawl site bd mp fuel task visited = some r →
      ∀ x ∈ r, x ∈ visited ∨ link_filter_props bd x := by
  intro fuel
  induction fuel with
  | zero =>
    intro task visited r h
    simp [runCrawl] at h
  | succ f ih =>
    intro task visited r h
    cases task with
    | page url =>
      simp only [runCrawl] at h
      by_cases hstop : (visited.length : Int) ≥ mp
      · simp only [if_pos hstop, Option.some.injEq] at h
        exact fun x hx => Or.inl (h ▸ hx)
      · simp only [if_neg hstop] at h
        cases hsite : site url with
        | failure =>
          rw [hsite] at h
          simp only [Option.some.injEq] at h
          exact fun x hx => Or.inl (h ▸ hx)
        | success isHtml links =>
          rw [hsite] at h
          cases isHtml with
          | false =>
            simp only [Bool.not_false, if_true, Option.some.injEq] at h
            exact fun x hx => Or.inl (h ▸ hx)
          | true =>
            simp only [Bool.not_true, Bool.false_eq_true, if_false] at h
            exact ih _ _ _ h
    | scan hrefs =>
      cases hrefs with
      | nil =>
        simp only [runCrawl, Option.some.injEq] at h
        exact fun x hx => Or.inl (h ▸ hx)
      | cons href rest =>
        simp only [runCrawl] at h
        by_cases hok : internal_link_ok bd visited href = true
        · simp only [if_pos hok] at h
          cases hrec : runCrawl site bd mp f (CrawlTask.page href)
              (href :: visited) with
          | none => rw [hrec] at h; simp at h
          | some r₁ =>
            rw [hrec] at h
            intro x hx
            rcases ih _ _ _ h x hx with hx2 | hprops
            · rcases mem_pyUpdate.mp hx2 with hx3 | hx3
              · rcases List.mem_cons.mp hx3 with rfl | hx4
                · exact Or.inr (internal_link_ok_spec hok).2
                · exact Or.inl hx4
              · rcases ih _ _ _ hrec x hx3 with hx4 | hprops
                · rcases List.mem_cons.mp hx4 with rfl | hx5
                  · exact Or.inr (internal_link_ok_spec hok).2
                  · exact Or.inl hx5
                · exact Or.inr hprops
            · exact Or.inr hprops
        · simp only [if_neg hok] at h
          exact ih _ _ _ h

lemma runCrawl_converges (site : String → FetchResult) (bd : String) (mp : Int) :
    ∀ n u visited, mp.toNat + 1 - visited.length ≤ n →
      ∃ fuel, runCrawl site bd mp fuel (CrawlTask.page u) visited =
        some (get_internal_links site bd mp u visited) := by
  intro n
  induction n using Nat.strong_induction_on with
  | _ n ih =>
    have loopc : ∀ links visited, mp.toNat - List.length visited < n →
        ∃ fuel, runCrawl site bd mp fuel (CrawlTask.scan links) visited =
          some (process_links site bd mp links visited) := by
      intro links
      induction links with
      | nil =>
        intro visited _
        exact ⟨1, by simp [runCrawl, process_links]⟩
      | cons href rest ihl =>
        intro visited hv
        by_cases hok : internal_link_ok bd visited href = true
        · obtain ⟨f₁, h₁⟩ := ih (mp.toNat - visited.length) hv href
            (href :: visited) (by simp only [List.length_cons]; omega)
          obtain ⟨f₂, h₂⟩ := ihl
            (pyUpdate (href :: visited)
              (get_internal_links site bd mp href (href :: visited)))
            (by
              have hlen : visited.length + 1 ≤
                  (pyUpdate (href :: visited)
                    (get_internal_links site bd mp href (href :: visited))).length := by
                simp only [pyUpdate, List.length_append, List.length_cons]
                omega
              omega)
          refine ⟨max f₁ f₂ + 1, ?_⟩
          have h₁' := runCrawl_mono site bd mp f₁ (max f₁ f₂) _ _ _
            (le_max_left _ _) h₁
          have h₂' := runCrawl_mono site bd mp f₂ (max f₁ f₂) _ _ _
            (le_max_right _ _) h₂
          rw [runCrawl, if_pos hok, h₁', process_links, if_pos hok]
          exact h₂'
        · obtain ⟨f₂, h₂⟩ := ihl visited hv
          refine ⟨f₂ + 1, ?_⟩
          rw [runCrawl, if_neg hok, h₂, process_links, if_neg hok]
    intro u visited hn
    by_cases hstop : (visited.length : Int) ≥ mp
    · refine ⟨1, ?_⟩
      rw [runCrawl, if_pos hstop, get_internal_links, dif_pos hstop]
    · cases hsite : site u with
      | failure =>
        refine ⟨1, ?_⟩
        rw [runCrawl, if_neg hstop, hsite, get_internal_links, dif_neg hstop, hsite]
      | success isHtml links =>
        cases isHtml with
        | false =>
          refine ⟨1, ?_⟩
          rw [runCrawl, if_neg hstop, hsite, get_internal_links, dif_neg hstop, hsite]
          simp
        | true =>
          obtain ⟨f, hf⟩ := loopc links visited (by omega)
          refine ⟨f + 1, ?_⟩
          rw [runCrawl, if_neg hstop, hsite, get_internal_links, dif_neg hstop, hsite]
          simpa using hf

lemma runCrawl_sound (site : String → FetchResult) (bd : String) (mp : Int)
    (fuel : Nat) (u : String) (visited r : List String)
    (h : runCrawl site bd mp fuel (CrawlTask.page u) visited = some r) :
    r = get_internal_links site bd mp u visited := by
  obtain ⟨f₀, h₀⟩ := runCrawl_converges site bd mp (mp.toNat + 1) u visited (by omega)
  have h1 := runCrawl_mono site bd mp fuel (max fuel f₀) _ _ _ (le_max_left _ _) h
  have h2 := runCrawl_mono site bd mp f₀ (max fuel f₀) _ _ _ (le_max_right _ _) h₀
  rw [h1] at h2
  exact (Option.some.injEq _ _).mp h2

lemma get_internal_links_subset (site : String → FetchResult) (bd : String)
    (mp : Int) (u : String) (visited : List String) :
    visited ⊆ get_internal_links site bd mp u visited := by
  obtain ⟨f, hf⟩ := runCrawl_converges site bd mp (mp.toNat + 1) u visited (by omega)
  exact runCrawl_subset site bd mp f _ _ _ hf

lemma get_internal_links_mem (site : String → FetchResult) (bd : String)
    (mp : Int) (u : String) (visited : List String) :
    ∀ x ∈ get_internal_links site bd mp u visited,
      x ∈ visited ∨ link_filter_props bd x := by
  obtain ⟨f, hf⟩ := runCrawl_converges site bd mp (mp.toNat + 1) u visited (by omega)
  exact runCrawl_mem site bd mp f _ _ _ hf

lemma generate_sitemap_ok_elim {robots : RobotsDoc}
    {site : String → FetchResult} {url : String} {mp : Int} {resp : ApiResponse}
    (h : generate_sitemap robots site url mp = Except.ok resp) :
    resp.links = get_internal_links site (urlparse url).netloc mp url [url] ∧
    resp.sitemap = build_sitemap resp.links ∧
    resp.url_count = resp.links.length ∧
    resp.crawl_delay_used = (check_robots_txt robots url).2 := by
  simp only [generate_sitemap] at h
  split at h
  · simp at h
  · split at h
    · simp at h
    · injection h with h
      subst h
      exact ⟨rfl, rfl, rfl, rfl⟩

lemma exCrawl : get_internal_links exSite ((urlparse exSeed).netloc) 10 exSeed
    [exSeed] = exLinks :=
  (runCrawl_sound exSite ((urlparse exSeed).netloc) 10 30 exSeed [exSeed]
    exLinks rfl).symm

lemma exGen : generate_sitemap exRobots exSite exSeed 10 = Except.ok exResp := by
  have hc := exCrawl
  simp only [generate_sitemap]
  rw [if_neg (by decide), if_neg (by decide), hc]
  rfl

lemma url_entry_inj {a b : String} (h : url_entry a = url_entry b) : a = b := by
  simpa [url_entry] using h

/-- Claim C1 (refuted by the code, exhibiting the bug): the spec says the
final result set handed to the sitemap writer has cardinality at most the
requested maxPages.  In the code the limit is checked only on entry to
`get_internal_links`, while the link loop keeps adding links without
re-checking, so with `max_pages = 2` a seed page carrying three internal
links yields a result set of size 4. -/
theorem C1_result_exceeds_max_pages :
    (get_internal_links c1Site ((urlparse c1Seed).netloc) 2 c1Seed
      [c1Seed]).length = 4 := by
  have h := runCrawl_sound c1Site ((urlparse c1Seed).netloc) 2 10 c1Seed
    [c1Seed] [c1C, c1B, c1A, c1Seed] rfl
  rw [← h]
  rfl

/-- Claim C2 (confirmed): every URL in the final result set — and every URL
listed in the emitted sitemap — has the same host (netloc) as the seed URL;
no cross-domain URL appears. -/
theorem C2_result_same_host (robots : RobotsDoc) (site : String → FetchResult)
    (url : String) (mp : Int) (resp : ApiResponse)
    (hresp : generate_sitemap robots site url mp = Except.ok resp) :
    (∀ x ∈ resp.links, (urlparse x).netloc = (urlparse url).netloc) ∧
    (∀ x, url_entry x ∈ resp.sitemap.children →
      (urlparse x).netloc = (urlparse url).netloc) := by
  obtain ⟨hlinks, hs, -, -⟩ := generate_sitemap_ok_elim hresp
  have part1 : ∀ x ∈ resp.links, (urlparse x).netloc = (urlparse url).netloc := by
    intro x hx
    rw [hlinks] at hx
    rcases get_internal_links_mem site ((urlparse url).netloc) mp url [url] x hx
      with hx1 | hprops
    · rw [List.mem_singleton.mp hx1]
    · exact hprops.1
  refine ⟨part1, ?_⟩
  intro x hx
  rw [hs] at hx
  simp only [build_sitemap, XmlElem.children] at hx
  obtain ⟨y, hy, heq⟩ := List.mem_map.mp hx
  rw [← url_entry_inj heq]
  exact part1 y hy

/-- Witness for C2 at the concrete example crawl. -/
theorem C2_result_same_host_witness :
    (urlparse exA).netloc = (urlparse exSeed).netloc :=
  (C2_result_same_host exRobots exSite exSeed 10 exResp exGen).1 exA (by decide)

/-- Claim C3 (refuted by the code, exhibiting the bug): the spec says
consecutive fetches against the same host are separated by at least the
effective crawl delay computed from the robots policy, enforced before every
fetch.  In the code the only pause is `time.sleep(CRAWL_DELAY)` — the
constant 2, not the robots-advertised delay (here 10, even though it is
reported as `crawl_delay_used`) — and it runs only after a successful HTML
fetch, so after a failed fetch the next fetch to the same host starts with
zero separation: here the fetches of `c3Fail` and `c3B` both start at
instant 2. -/
theorem C3_crawl_delay_not_enforced :
    check_robots_txt c3Robots c3Seed = (true, 10) ∧
    runCrawlTimed c3Site ((urlparse c3Seed).netloc) 10 20 (CrawlTask.page c3Seed)
        [c3Seed] 0 [] =
      some ([c3B, c3Fail, c3Seed], 4, [(c3Seed, 0), (c3Fail, 2), (c3B, 2)]) ∧
    2 - 2 < CRAWL_DELAY ∧ 2 - 2 < (check_robots_txt c3Robots c3Seed).2 :=
  ⟨rfl, rfl, by decide, by decide⟩

/-- Claim C4, counterexample: the claim says a URL whose *path* ends in a
denylisted extension never appears in the result set, but the code applies
`endswith` to the whole URL string, so `http://example.test/doc.pdf?view=1`
(path `/doc.pdf`) survives the filter and is crawled into the result set. -/
theorem C4_path_extension_counterexample :
    (".pdf" ∈ EXTENSIONS) ∧
    strEndsWith ((urlparse exPdfQuery).path) (".pdf") = true ∧
    exPdfQuery ∈ get_internal_links exSite ((urlparse exSeed).netloc) 10 exSeed
      [exSeed] := by
  refine ⟨by decide, by decide, ?_⟩
  rw [exCrawl]
  decide

/-- Claim C4 as amended: a URL other than the seed whose full URL *string*
ends in a denylisted extension never appears in the final result set (the
filter tests the raw string, so a denylisted path followed by a query string
can appear, and the seed itself is never filtered). -/
theorem C4_extension_filter_amended (robots : RobotsDoc)
    (site : String → FetchResult) (url : String) (mp : Int) (resp : ApiResponse)
    (hresp : generate_sitemap robots site url mp = Except.ok resp) :
    ∀ x ∈ resp.links, x ≠ url → ∀ ext ∈ EXTENSIONS, strEndsWith x ext = false := by
  obtain ⟨hlinks, -, -, -⟩ := generate_sitemap_ok_elim hresp
  intro x hx hne ext hext
  rw [hlinks] at hx
  rcases get_internal_links_mem site ((urlparse url).netloc) mp url [url] x hx
    with hx1 | hprops
  · exact absurd (List.mem_singleton.mp hx1) hne
  · exact hprops.2.2 ext hext

/-- Witness for the amended C4 at the concrete example crawl. -/
theorem C4_extension_filter_amended_witness :
    strEndsWith exA (".pdf") = false :=
  C4_extension_filter_amended exRobots exSite exSeed 10 exResp exGen exA
    (by decide) (by decide) (".pdf") (by decide)

/-- Claim C5 (confirmed): if the robots policy disallows the seed URL (and
the request is not already rejected for its page limit), the job is rejected
with the 403-style error and the traversal is never started — the job issues
no page fetch beyond the policy check itself. -/
theorem C5_robots_disallow_rejects_job (robots : RobotsDoc)
    (site : String → FetchResult) (url : String) (mp : Int) (fuel : Nat)
    (hmp : mp ≤ (MAX_PAGES_LIMIT : Int))
    (hdis : (check_robots_txt robots url).1 = false) :
    generate_sitemap robots site url mp = Except.error ApiError.robotsDisallowed ∧
    statusCode ApiError.robotsDisallowed = 403 ∧
    generate_sitemap_fetches robots site url mp fuel = [] := by
  refine ⟨?_, rfl, ?_⟩
  · simp only [generate_sitemap]
    rw [if_neg (not_lt.mpr hmp), if_pos hdis]
  · simp only [generate_sitemap_fetches]
    rw [if_neg (not_lt.mpr hmp), if_pos hdis]

/-- Witness for C5: a robots document disallowing everything rejects the job
and no fetch event is recorded. -/
theorem C5_robots_disallow_rejects_job_witness :
    generate_sitemap c5Robots exSite exSeed 10 =
      Except.error ApiError.robotsDisallowed ∧
    statusCode ApiError.robotsDisallowed = 403 ∧
    generate_sitemap_fetches c5Robots exSite exSeed 10 30 = [] :=
  C5_robots_disallow_rejects_job c5Robots exSite exSeed 10 30 (by decide) rfl

/-- Claim C6 (confirmed): when the robots document is unreachable or absent,
the evaluation returns `(allowed := true, delay := CRAWL_DELAY)` without
surfacing any error (the function is total), and when the document is
readable but advertises no crawl-delay the returned delay falls back to the
default. -/
theorem C6_robots_fail_open : ∀ url : String,
    check_robots_txt RobotsDoc.unreachable url = (true, CRAWL_DELAY) ∧
    check_robots_txt RobotsDoc.absent url = (true, CRAWL_DELAY) ∧
    ∀ canFetch : String → Bool,
      check_robots_txt (RobotsDoc.content canFetch none) url =
        (canFetch url, CRAWL_DELAY) :=
  fun _ => ⟨rfl, rfl, fun _ => rfl⟩

/-- Claim C7 (confirmed): the traversal terminates on every input — for any
site (including cyclic link graphs), base domain, page limit, seed and
initial visited set, the raw recursion modelled by the fuel-indexed
`runCrawl` completes within some finite fuel, and its value is
`get_internal_links`. -/
theorem C7_crawl_terminates : ∀ (site : String → FetchResult) (bd : String)
    (mp : Int) (u : String) (visited : List String),
    ∃ fuel, runCrawl site bd mp fuel (CrawlTask.page u) visited =
      some (get_internal_links site bd mp u visited) :=
  fun site bd mp u visited =>
    runCrawl_converges site bd mp (mp.toNat + 1) u visited (by omega)

/-- Claim C8, counterexample: the claim says a request with maxPages outside
`1 ≤ maxPages ≤ systemMaximum` is not processed as a crawl, but the code only
validates the upper bound: `max_pages = 0` is accepted and processed,
producing a success response whose sitemap lists the seed. -/
theorem C8_lower_bound_counterexample :
    generate_sitemap exRobots exSite exSeed 0 = Except.ok exResp0 := by
  have h := (runCrawl_sound exSite ((urlparse exSeed).netloc) 0 1 exSeed
    [exSeed] [exSeed] rfl).symm
  simp only [generate_sitemap]
  rw [if_neg (by decide), if_neg (by decide), h]
  rfl

/-- Claim C8 as amended: only the upper bound is validated — a request with
maxPages above `MAX_PAGES_LIMIT` is rejected with the 400-style error before
any crawling begins (no fetch is issued), while a request with maxPages below
1 is still accepted and processed, the traversal stopping immediately so the
result contains exactly the seed. -/
theorem C8_upper_bound_only_validated (robots : RobotsDoc)
    (site : String → FetchResult) (url : String) (mp : Int) :
    (mp > (MAX_PAGES_LIMIT : Int) →
      generate_sitemap robots site url mp = Except.error ApiError.limitExceeded ∧
      statusCode ApiError.limitExceeded = 400 ∧
      ∀ fuel, generate_sitemap_fetches robots site url mp fuel = []) ∧
    (mp ≤ 0 → (check_robots_txt robots url).1 = true →
      generate_sitemap robots site url mp = Except.ok
        { message := "Sitemap generated successfully"
          file_path := sitemap_file_path ((urlparse url).netloc)
          url_count := 1
          crawl_delay_used := (check_robots_txt robots url).2
          links := [url]
          sitemap := build_sitemap [url] }) := by
  constructor
  · intro hmp
    refine ⟨?_, rfl, ?_⟩
    · simp only [generate_sitemap]
      rw [if_pos hmp]
    · intro fuel
      simp only [generate_sitemap_fetches]
      rw [if_pos hmp]
  · intro hmp hallow
    have hcrawl : get_internal_links site ((urlparse url).netloc) mp url [url] =
        [url] := by
      rw [get_internal_links, dif_pos (by simp only [List.length_singleton]; omega)]
    simp only [generate_sitemap]
    rw [if_neg (by simp only [MAX_PAGES_LIMIT]; omega),
      if_neg (by simp [hallow]), hcrawl]
    rfl

/-- Witness for the amended C8: maxPages 501 is rejected with no fetches;
maxPages 0 is accepted and returns only the seed. -/
theorem C8_upper_bound_only_validated_witness :
    (generate_sitemap exRobots exSite exSeed 501 =
        Except.error ApiError.limitExceeded ∧
      statusCode ApiError.limitExceeded = 400 ∧
      ∀ fuel, generate_sitemap_fetches exRobots exSite exSeed 501 fuel = []) ∧
    generate_sitemap exRobots exSite exSeed 0 = Except.ok
      { message := "Sitemap generated successfully"
        file_path := sitemap_file_path ((urlparse exSeed).netloc)
        url_count := 1
        crawl_delay_used := (check_robots_txt exRobots exSeed).2
        links := [exSeed]
        sitemap := build_sitemap [exSeed] } :=
  ⟨(C8_upper_bound_only_validated exRobots exSite exSeed 501).1 (by decide),
    (C8_upper_bound_only_validated exRobots exSite exSeed 0).2 (by decide) rfl⟩

/-- Claim C9 (confirmed): on success the sitemap document has root element
`urlset` carrying the sitemaps.org 0.9 namespace, no text, and exactly one
`url` child per visited URL — each child being `url_entry u`, a `url` element
whose sole content is a single `loc` child holding the literal URL string,
with no other sitemap fields. -/
theorem C9_sitemap_document_shape (robots : RobotsDoc)
    (site : String → FetchResult) (url : String) (mp : Int) (resp : ApiResponse)
    (hresp : generate_sitemap robots site url mp = Except.ok resp) :
    resp.sitemap.tag = "urlset" ∧
    resp.sitemap.attrs =
      [("xmlns", "http://www.sitemaps.org/schemas/sitemap/0.9")] ∧
    resp.sitemap.text = none ∧
    resp.sitemap.children = resp.links.map url_entry ∧
    resp.sitemap.children.length = resp.links.length ∧
    ∀ u, u ∈ resp.links ↔ url_entry u ∈ resp.sitemap.children := by
  obtain ⟨-, hs, -, -⟩ := generate_sitemap_ok_elim hresp
  rw [hs]
  refine ⟨rfl, rfl, rfl, rfl, by simp [build_sitemap, XmlElem.children], ?_⟩
  intro u
  simp only [build_sitemap, XmlElem.children, List.mem_map]
  constructor
  · intro hu
    exact ⟨u, hu, rfl⟩
  · rintro ⟨y, hy, heq⟩
    rw [← url_entry_inj heq]
    exact hy

/-- Witness for C9 at the concrete example crawl. -/
theorem C9_sitemap_document_shape_witness :
    exResp.sitemap.tag = "urlset" ∧
    exResp.sitemap.attrs =
      [("xmlns", "http://www.sitemaps.org/schemas/sitemap/0.9")] ∧
    exResp.sitemap.text = none ∧
    exResp.sitemap.children = exResp.links.map url_entry ∧
    exResp.sitemap.children.length = exResp.links.length ∧
    ∀ u, u ∈ exResp.links ↔ url_entry u ∈ exResp.sitemap.children :=
  C9_sitemap_document_shape exRobots exSite exSeed 10 exResp exGen

/-- Claim C10 (confirmed, implicit): the visited set only grows — every URL
in the initial set survives into the final result — and a URL added at
discovery time stays in the result even when its own fetch fails
(`exFail`, whose fetch errors) or returns non-HTML content (`exImg`). -/
theorem C10_discovered_urls_never_removed :
    (∀ (site : String → FetchResult) (bd : String) (mp : Int) (u : String)
        (visited : List String),
      visited ⊆ get_internal_links site bd mp u visited) ∧
    exSite exFail = FetchResult.failure ∧
    exFail ∈ get_internal_links exSite ((urlparse exSeed).netloc) 10 exSeed
      [exSeed] ∧
    exSite exImg = FetchResult.success false [] ∧
    exImg ∈ get_internal_links exSite ((urlparse exSeed).netloc) 10 exSeed
      [exSeed] := by
  refine ⟨fun site bd mp u visited => get_internal_links_subset site bd mp u visited,
    rfl, ?_, rfl, ?_⟩
  · rw [exCrawl]
    decide
  · rw [exCrawl]
    decide

/-- Witness instantiating the universally quantified part of C10. -/
theorem C10_discovered_urls_never_removed_witness :
    [exSeed] ⊆ get_internal_links exSite ((urlparse exSeed).netloc) 10 exSeed
      [exSeed] :=
  C10_discovered_urls_never_removed.1 exSite ((urlparse exSeed).netloc) 10 exSeed
    [exSeed]
